import Mathlib

/-!
Verification development for `prefect-snowflake`
(source: `src/prefect_snowflake/credentials.py`).

The file shallowly embeds the two pieces of the repository:

* the `SnowflakeCredentials` pydantic block — construction from a raw
  keyword mapping, the three `root_validator(pre=True)` checks, and the
  subsequent per-field coercion;
* the `resolve_pem_certificate` helper — passphrase normalization, the
  regex-based PEM disassembly (`_disassemble_cert`), body splitting on
  whitespace runs, and reassembly with newlines, feeding an abstract
  load/serialize step (the external `cryptography` library).
-/

namespace PrefectSnowflake

/-! ## Credential record: raw input mapping

`SnowflakeCredentials` is constructed from a raw keyword mapping
(`values` in the pydantic `pre=True` root validators).  We model the
mapping as one optional slot per key the code reads or coerces.  An
absent key, or a key supplied as `None`, is `none`; a supplied string
is `some s`.  Note that the raw mapping may carry *both* an
`okta_endpoint` entry (read by `_validate_okta_kwargs`) and an
`endpoint` entry (the declared model field): the two are distinct keys
in the Python dict, and pydantic ignores the undeclared extra key
`okta_endpoint` during field coercion. -/
structure RawValues where
  account : Option String
  user : Option String
  password : Option String
  private_key : Option String
  authenticator : Option String
  token : Option String
  okta_endpoint : Option String
  endpoint : Option String
  role : Option String
  autocommit : Option Bool
deriving DecidableEq, Repr

/-- Python truthiness of `values.get(key)` for a string-valued key:
`None` (absent key) and the empty string are falsy, every other string
is truthy. -/
def truthy : Option String → Bool
  | none => false
  | some s => !s.isEmpty

/-- Message of `_validate_auth_kwargs`:
`f"One of the authentication keys must be provided: {auth_str}\n"` with
`auth_str = ", ".join(("password", "private_key", "authenticator", "token"))`. -/
def authKeysMessage : String :=
  "One of the authentication keys must be provided: password, private_key, authenticator, token\n"

/-- Message of `_validate_token_kwargs`. -/
def oauthTokenMessage : String :=
  "If authenticator is set to `oauth`, `token` must be provided"

/-- Message of `_validate_okta_kwargs`. -/
def oktaEndpointMessage : String :=
  "If authenticator is set to `okta_endpoint`, `okta_endpoint` must be provided"

/-- `SnowflakeCredentials._validate_auth_kwargs`: raises unless
`any(values.get(param) for param in ("password", "private_key", "authenticator", "token"))`. -/
def validateAuthKwargs (v : RawValues) : Except String RawValues :=
  if truthy v.password || truthy v.private_key || truthy v.authenticator || truthy v.token
  then .ok v
  else .error authKeysMessage

/-- `SnowflakeCredentials._validate_token_kwargs`: raises when
`values.get("authenticator") == "oauth" and not values.get("token")`. -/
def validateTokenKwargs (v : RawValues) : Except String RawValues :=
  if v.authenticator = some "oauth" ∧ truthy v.token = false
  then .error oauthTokenMessage
  else .ok v

/-- `SnowflakeCredentials._validate_okta_kwargs`: raises when
`values.get("authenticator") == "okta_endpoint" and not values.get("okta_endpoint")`. -/
def validateOktaKwargs (v : RawValues) : Except String RawValues :=
  if v.authenticator = some "okta_endpoint" ∧ truthy v.okta_endpoint = false
  then .error oktaEndpointMessage
  else .ok v

/-- The five values admitted by the `Literal[...]` annotation of the
`authenticator` field. -/
def allowedAuthenticators : List String :=
  ["snowflake", "externalbrowser", "okta_endpoint", "oauth", "username_password_mfa"]

/-- The validated credential record: the declared fields of the
`SnowflakeCredentials` block after coercion.  Secret wrappers
(`SecretStr`/`SecretBytes`) hold the underlying string, so the fields
are modelled by their contents. -/
structure SnowflakeCredentials where
  account : String
  user : String
  password : Option String
  private_key : Option String
  authenticator : String
  token : Option String
  endpoint : Option String
  role : Option String
  autocommit : Option Bool
deriving DecidableEq, Repr

/-- Per-field validation/coercion performed by pydantic after the
`pre=True` root validators: `account` and `user` are required;
`authenticator` defaults to `"snowflake"` when the key is absent and
must otherwise be one of the `Literal` members; the optional fields
pass through.  The undeclared raw key `okta_endpoint` is ignored;
the declared `endpoint` field is populated from the `endpoint` key. -/
def coerceFields (v : RawValues) : Except String SnowflakeCredentials :=
  match v.account with
  | none => .error "account: field required"
  | some account =>
    match v.user with
    | none => .error "user: field required"
    | some user =>
      match v.authenticator with
      | none =>
        .ok ⟨account, user, v.password, v.private_key, "snowflake",
             v.token, v.endpoint, v.role, v.autocommit⟩
      | some a =>
        if allowedAuthenticators.contains a then
          .ok ⟨account, user, v.password, v.private_key, a,
               v.token, v.endpoint, v.role, v.autocommit⟩
        else .error "authenticator: unexpected value"

/-- Construction of the block from a raw mapping: the three
`root_validator(pre=True)` checks run first, in class-definition order,
against the raw mapping; a raise aborts construction with a validation
error.  Only afterwards does pydantic coerce the individual fields. -/
def construct (v : RawValues) : Except String SnowflakeCredentials :=
  match validateAuthKwargs v with
  | .error e => .error e
  | .ok v1 =>
    match validateTokenKwargs v1 with
    | .error e => .error e
    | .ok v2 =>
      match validateOktaKwargs v2 with
      | .error e => .error e
      | .ok v3 => coerceFields v3

/-- The first of the three invariant checks that fails on a raw
mapping, together with its message, and `none` when all three pass.
This is the spec-side description of the construction-time validation
(used to state that a failing check decides the outcome before any
per-field coercion). -/
def firstValidationError (v : RawValues) : Option String :=
  if (truthy v.password || truthy v.private_key || truthy v.authenticator || truthy v.token) = false
  then some authKeysMessage
  else if v.authenticator = some "oauth" ∧ truthy v.token = false
  then some oauthTokenMessage
  else if v.authenticator = some "okta_endpoint" ∧ truthy v.okta_endpoint = false
  then some oktaEndpointMessage
  else none

/-! ## Certificate normalizer (`resolve_pem_certificate`)

The helper works on Python `str` values; we model a string by its list
of characters (`String.data`).  The external `cryptography` calls
(`load_pem_private_key` followed by `private_bytes(DER, PKCS8,
NoEncryption)`) are a single abstract load/serialize step, passed in as
a function parameter: it receives the reassembled PEM text and the
normalized passphrase and returns either the DER bytes or an error. -/

/-- Characters matched by Python's `\s` in `re` on `str` values (the
`str.isspace` set): ASCII whitespace, the information separators,
NEL, NBSP, and the Unicode space separators. -/
def pyWhitespace : List Char :=
  [' ', '\t', '\n', '\r', '\x0b', '\x0c',
   '\x1c', '\x1d', '\x1e', '\x1f', '\x85', ' ',
   ' ', ' ', ' ', ' ', ' ', ' ', ' ',
   ' ', ' ', ' ', ' ', ' ',
   ' ', ' ', ' ', ' ', '　']

/-- `c` is a whitespace character for `re.split(r"\s+", ...)` on `str`. -/
def isPySpace (c : Char) : Bool := pyWhitespace.contains c

/-- `c` is a dash, the delimiter class of the PEM regex
`(-+[^-]+-+)([^-]+)(-+[^-]+-+)`. -/
def isDash (c : Char) : Bool := c == '-'

/-- Negation of `isDash`, the `[^-]` class of the PEM regex. -/
def notDash (c : Char) : Bool := !(isDash c)

/-- `re.match(r"(-+[^-]+-+)([^-]+)(-+[^-]+-+)", cert)` from
`_disassemble_cert`, returning the three groups.

The two character classes `-` and `[^-]` are disjoint and every
quantifier in the pattern is greedy, so regex backtracking can never
succeed where maximal munch fails: a quantifier that stopped inside a
run would leave the next character in its own class, which the
following (disjoint-class) token rejects.  The match therefore exists
exactly when the string decomposes into at least seven alternating
maximal runs starting with a dash run, and then
`group(1) = d1 ++ n1 ++ d2`, `group(2) = n2`, `group(3) = d3 ++ n3 ++ d4`
(`re.match` anchors only at the start, so input after the seventh run
is ignored). -/
def pemMatchL (l : List Char) : Option (List Char × List Char × List Char) :=
  let d1 := l.takeWhile isDash
  let r1 := l.dropWhile isDash
  let n1 := r1.takeWhile notDash
  let r2 := r1.dropWhile notDash
  let d2 := r2.takeWhile isDash
  let r3 := r2.dropWhile isDash
  let n2 := r3.takeWhile notDash
  let r4 := r3.dropWhile notDash
  let d3 := r4.takeWhile isDash
  let r5 := r4.dropWhile isDash
  let n3 := r5.takeWhile notDash
  let r6 := r5.dropWhile notDash
  let d4 := r6.takeWhile isDash
  if d1 ≠ [] ∧ n1 ≠ [] ∧ d2 ≠ [] ∧ n2 ≠ [] ∧ d3 ≠ [] ∧ n3 ≠ [] ∧ d4 ≠ []
  then some (d1 ++ n1 ++ d2, n2, d3 ++ n3 ++ d4)
  else none

/-- `re.split(r"\s+", body)`: the pieces between consecutive maximal
whitespace runs, in order, including an empty piece at either end when
the body starts or ends with whitespace (and `[""]` on the empty
string). -/
def splitWsRuns : List Char → List (List Char)
  | [] => [[]]
  | [c] => if isPySpace c then [[], []] else [[c]]
  | c :: d :: cs =>
    if isPySpace c then
      if isPySpace d then splitWsRuns (d :: cs)
      else [] :: splitWsRuns (d :: cs)
    else
      match splitWsRuns (d :: cs) with
      | [] => [[c]]
      | t :: ts => (c :: t) :: ts

/-- The maximal non-whitespace runs of a string, in order: the result
of splitting on whitespace runs and discarding empty tokens.  This is
the spec-side description of the body chunks produced by
`_disassemble_cert` (`re.split(r"\s+", ...)` followed by `if p`). -/
def wsTokens : List Char → List (List Char)
  | [] => []
  | [c] => if isPySpace c then [] else [[c]]
  | c :: d :: cs =>
    if isPySpace c then wsTokens (d :: cs)
    else if isPySpace d then [c] :: wsTokens (d :: cs)
    else
      match wsTokens (d :: cs) with
      | [] => [[c]]
      | t :: ts => (c :: t) :: ts

/-- Replace every maximal whitespace run of a string with a single
space.  This builds the "variant of the key whose body-line whitespace
has been collapsed into a single whitespace run (no newlines)". -/
def collapseWs : List Char → List Char
  | [] => []
  | [c] => if isPySpace c then [' '] else [c]
  | c :: d :: cs =>
    if isPySpace c ∧ isPySpace d then collapseWs (d :: cs)
    else (if isPySpace c then ' ' else c) :: collapseWs (d :: cs)

/-- The generator `_disassemble_cert`: on a matching certificate it
yields `group(1)`, then the non-empty pieces of
`re.split(r"\s+", group(2))`, then `group(3)`; on a non-matching input
`cert_parts` is `None` and subscripting it raises. -/
def disassembleCert (cert : List Char) : Option (List (List Char)) :=
  (pemMatchL cert).map fun g =>
    g.1 :: ((splitWsRuns g.2.1).filter fun p => !p.isEmpty) ++ [g.2.2]

/-- `"\n".join(...)` over the yielded parts. -/
def joinNl (parts : List (List Char)) : List Char :=
  List.intercalate ['\n'] parts

/-- The reassembled PEM text `"\n".join(_disassemble_cert(private_key))`,
or `none` when the regex does not match and the generator raises. -/
def reassembleCert (key : String) : Option (List Char) :=
  (disassembleCert key.data).map joinNl

/-- The six characters whose UTF-8 encodings are the bytes accepted by
`bytes.isspace` (`b" \t\n\r\x0b\x0c"`).  A non-empty string consists
only of these characters exactly when every byte of its UTF-8 encoding
is an ASCII whitespace byte — a multi-byte character always contributes
a byte outside the set — so this captures `password.encode().isspace()`. -/
def isAsciiSpaceChar (c : Char) : Bool :=
  c == ' ' || c == '\t' || c == '\n' || c == '\r' || c == '\x0b' || c == '\x0c'

/-- Passphrase normalization from `resolve_pem_certificate`:
```python
if isinstance(password, str) and len(password) > 0:
    password = password.encode()
if not isinstance(password, bytes) or len(password) == 0 or password.isspace():
    password = None
```
`none` models a missing (or non-byte-like) passphrase; a surviving text
passphrase is modelled by the string whose UTF-8 bytes are handed to
the key loader (encoding is injective, so the string stands for its
bytes). -/
def normalizePassword : Option String → Option String
  | none => none
  | some s =>
    if s.isEmpty then none
    else if s.data.all isAsciiSpaceChar then none
    else some s

/-- `resolve_pem_certificate(private_key, password)`, parameterized by
the external load/serialize step `loadSer` (the composition of
`serialization.load_pem_private_key` and
`.private_bytes(Encoding.DER, PrivateFormat.PKCS8, NoEncryption())`),
which receives the reassembled PEM text and the normalized passphrase.
A `bytes` key is first decoded, so a `String` input covers both.
When the regex match fails, subscripting the `None` match object
raises before the library is ever called, so no bytes are returned. -/
def resolvePemCertificate
    (loadSer : List Char → Option String → Except String (List Nat))
    (key : String) (password : Option String) : Except String (List Nat) :=
  match reassembleCert key with
  | none => .error "TypeError: NoneType object is not subscriptable"
  | some pem => loadSer pem (normalizePassword password)

/-! ## Concrete raw mappings used to instantiate the theorems -/

/-- `authenticator="okta_endpoint"` with the `okta_endpoint` key supplied. -/
def vOktaOk : RawValues :=
  ⟨some "account_name", some "user_name", none, none, some "okta_endpoint",
   none, some "https://account_name.okta.com", none, none, none⟩

/-- `authenticator="okta_endpoint"` with no `okta_endpoint` key. -/
def vOktaMissing : RawValues :=
  ⟨some "account_name", some "user_name", none, none, some "okta_endpoint",
   none, none, none, none, none⟩

/-- Only `authenticator="snowflake"` — the default value, supplied
explicitly, with no other authentication field. -/
def vSnowflakeOnly : RawValues :=
  ⟨some "account_name", some "user_name", none, none, some "snowflake",
   none, none, none, none, none⟩

/-- `authenticator="oauth"` with a token. -/
def vOauthOk : RawValues :=
  ⟨some "account_name", some "user_name", none, none, some "oauth",
   some "token_value", none, none, none, none⟩

/-- `authenticator="oauth"` without a token. -/
def vOauthMissing : RawValues :=
  ⟨some "account_name", some "user_name", none, none, some "oauth",
   none, none, none, none, none⟩

/-- Password only. -/
def vPasswordOnly : RawValues :=
  ⟨some "account_name", some "user_name", some "secret_value", none, none,
   none, none, none, none, none⟩

/-- No authentication-related key at all. -/
def vNoAuth : RawValues :=
  ⟨some "account_name", some "user_name", none, none, none,
   none, none, none, none, none⟩

/-- `password`, `private_key` and `token` supplied as empty strings,
no `authenticator` key. -/
def vEmptyStrings : RawValues :=
  ⟨some "account_name", some "user_name", some "", some "", none,
   some "", none, none, none, none⟩

/-- A stand-in for the external load/serialize step that ignores its
arguments (used to instantiate theorems at concrete inputs). -/
def loadSerStub : List Char → Option String → Except String (List Nat) :=
  fun _ _ => .ok []

/-- A stand-in for the external load/serialize step that reports
whether a passphrase was passed (used to instantiate theorems at
concrete inputs). -/
def loadSerPw : List Char → Option String → Except String (List Nat) :=
  fun _ pw => match pw with
  | none => .ok [0]
  | some _ => .ok [1]

/-- A small certificate matching the PEM pattern, with collapsible
whitespace in its body. -/
def pemKeyExample : String := "--B--x  y--E--"

/-- A string without the dashed BEGIN/END delimiter structure. -/
def badKeyExample : String := "no delimiters"

/-! ## Theorems about credential-record construction -/

theorem truthy_none : truthy none = false := rfl

theorem truthy_some (s : String) : truthy (some s) = !s.isEmpty := rfl

/-- C1: for every construction of the credential record with
`authenticator = "okta_endpoint"`: if the raw okta endpoint value is
unset or empty, construction fails with the okta validation error; if
it is set (non-empty), construction succeeds given the other required
fields `account` and `user`. -/
theorem c1_okta_endpoint_validation (v : RawValues)
    (hauth : v.authenticator = some "okta_endpoint") :
    (truthy v.okta_endpoint = false → construct v = .error oktaEndpointMessage) ∧
    (∀ a u, truthy v.okta_endpoint = true → v.account = some a → v.user = some u →
      construct v = .ok ⟨a, u, v.password, v.private_key, "okta_endpoint",
                          v.token, v.endpoint, v.role, v.autocommit⟩) := by
  constructor
  · intro hok
    simp +decide [construct, validateAuthKwargs, validateTokenKwargs, validateOktaKwargs,
          truthy_some, hauth, hok]
  · intro a u hok hacc huser
    simp +decide [construct, validateAuthKwargs, validateTokenKwargs, validateOktaKwargs,
          coerceFields, allowedAuthenticators, truthy_some, hauth, hok, hacc, huser]

/-- C1 witness: both halves at concrete raw mappings. -/
theorem c1_witness :
    construct vOktaOk = .ok ⟨"account_name", "user_name", none, none, "okta_endpoint",
                              none, none, none, none⟩ ∧
    construct vOktaMissing = .error oktaEndpointMessage := by
  refine ⟨(c1_okta_endpoint_validation vOktaOk rfl).2 "account_name" "user_name" rfl rfl rfl,
         (c1_okta_endpoint_validation vOktaMissing rfl).1 rfl⟩

/-- C4: for every construction of the credential record with
`authenticator = "oauth"`: if `token` is unset or empty, construction
fails with the oauth validation error; if `token` is set, construction
succeeds given the other required fields. -/
theorem c4_oauth_token_validation (v : RawValues)
    (hauth : v.authenticator = some "oauth") :
    (truthy v.token = false → construct v = .error oauthTokenMessage) ∧
    (∀ a u, truthy v.token = true → v.account = some a → v.user = some u →
      construct v = .ok ⟨a, u, v.password, v.private_key, "oauth",
                          v.token, v.endpoint, v.role, v.autocommit⟩) := by
  constructor
  · intro htok
    simp +decide [construct, validateAuthKwargs, validateTokenKwargs,
          truthy_some, hauth, htok]
  · intro a u htok hacc huser
    simp +decide [construct, validateAuthKwargs, validateTokenKwargs, validateOktaKwargs,
          coerceFields, allowedAuthenticators, truthy_some, hauth, htok, hacc, huser]

/-- C4 witness: both halves at concrete raw mappings. -/
theorem c4_witness :
    construct vOauthOk = .ok ⟨"account_name", "user_name", none, none, "oauth",
                               some "token_value", none, none, none⟩ ∧
    construct vOauthMissing = .error oauthTokenMessage := by
  refine ⟨(c4_oauth_token_validation vOauthOk rfl).2 "account_name" "user_name" rfl rfl rfl,
         (c4_oauth_token_validation vOauthMissing rfl).1 rfl⟩

/-- C2 counterexample: the claim says an authenticator equal to the
default value `"snowflake"` does not by itself satisfy the
at-least-one-auth-method check.  But `_validate_auth_kwargs` tests the
truthiness of the raw `values.get("authenticator")`, and the non-empty
string `"snowflake"` is truthy: supplying `authenticator="snowflake"`
explicitly, with no password, private key or token, passes the check
and the whole construction succeeds. -/
theorem c2_counterexample :
    vSnowflakeOnly.password = none ∧ vSnowflakeOnly.private_key = none ∧
    vSnowflakeOnly.token = none ∧ vSnowflakeOnly.authenticator = some "snowflake" ∧
    validateAuthKwargs vSnowflakeOnly = .ok vSnowflakeOnly ∧
    construct vSnowflakeOnly =
      .ok ⟨"account_name", "user_name", none, none, "snowflake", none, none, none, none⟩ := by
  refine ⟨rfl, rfl, rfl, rfl, ?_, ?_⟩ <;> rfl

/-- Each `pre=True` validator returns the mapping unchanged when it
does not raise. -/
theorem validateAuth_ok_eq {v w : RawValues} (h : validateAuthKwargs v = .ok w) : w = v := by
  simp only [validateAuthKwargs] at h
  split at h
  · cases h; rfl
  · cases h

theorem validateToken_ok_eq {v w : RawValues} (h : validateTokenKwargs v = .ok w) : w = v := by
  simp only [validateTokenKwargs] at h
  split at h
  · cases h
  · cases h; rfl

theorem validateOkta_ok_eq {v w : RawValues} (h : validateOktaKwargs v = .ok w) : w = v := by
  simp only [validateOktaKwargs] at h
  split at h
  · cases h
  · cases h; rfl

/-- C2 (amended): when `authenticator` is omitted it defaults to
`"snowflake"`, and an omitted authenticator does not satisfy the
at-least-one-auth-method check; any explicitly supplied non-empty
authenticator value — including the default value `"snowflake"` — or
one of password/private_key/token makes construction pass that check. -/
theorem c2_default_authenticator_amended :
    (∀ v r, v.authenticator = none → construct v = .ok r →
      r.authenticator = "snowflake") ∧
    (∀ v, v.authenticator = none → truthy v.password = false →
      truthy v.private_key = false → truthy v.token = false →
      construct v = .error authKeysMessage) ∧
    (∀ v s, v.authenticator = some s → s ≠ "" →
      validateAuthKwargs v = .ok v) ∧
    (∀ v, truthy v.password = true ∨ truthy v.private_key = true ∨
      truthy v.token = true → validateAuthKwargs v = .ok v) := by
  refine ⟨?_, ?_, ?_, ?_⟩
  · intro v r hnone hok
    simp only [construct] at hok
    cases hva : validateAuthKwargs v with
    | error e => rw [hva] at hok; cases hok
    | ok v1 =>
      rw [show v1 = v from validateAuth_ok_eq hva] at hva
      simp only [hva] at hok
      cases hvt : validateTokenKwargs v with
      | error e => simp only [hvt] at hok; cases hok
      | ok v2 =>
        rw [show v2 = v from validateToken_ok_eq hvt] at hvt
        simp only [hvt] at hok
        cases hvo : validateOktaKwargs v with
        | error e => simp only [hvo] at hok; cases hok
        | ok v3 =>
          rw [show v3 = v from validateOkta_ok_eq hvo] at hvo
          simp only [hvo] at hok
          simp only [coerceFields, hnone] at hok
          cases hacc : v.account with
          | none => simp only [hacc] at hok; cases hok
          | some a =>
            simp only [hacc] at hok
            cases huser : v.user with
            | none => simp only [huser] at hok; cases hok
            | some u =>
              simp only [huser] at hok
              cases hok
              rfl
  · intro v hnone hpw hpk htok
    simp [construct, validateAuthKwargs, hnone, hpw, hpk, htok, truthy_none]
  · intro v s hsome hne
    have hie : s.isEmpty = false := by
      cases hemp : s.isEmpty
      · rfl
      · exact absurd ((String.isEmpty_iff s).mp hemp) hne
    have : truthy v.authenticator = true := by
      rw [hsome, truthy_some, hie]; rfl
    simp [validateAuthKwargs, this]
  · intro v h
    rcases h with hp | hk | ht
    · simp [validateAuthKwargs, hp]
    · simp [validateAuthKwargs, hk]
    · simp [validateAuthKwargs, ht]

/-- C2 witness: the amended parts at concrete raw mappings, including
a password-only mapping passing the at-least-one-auth-method check. -/
theorem c2_witness :
    construct vNoAuth = .error authKeysMessage ∧
    validateAuthKwargs vSnowflakeOnly = .ok vSnowflakeOnly ∧
    validateAuthKwargs vPasswordOnly = .ok vPasswordOnly := by
  refine ⟨c2_default_authenticator_amended.2.1 vNoAuth rfl rfl rfl rfl,
         c2_default_authenticator_amended.2.2.1 vSnowflakeOnly "snowflake" rfl (by decide),
         c2_default_authenticator_amended.2.2.2 vPasswordOnly (Or.inl (by decide))⟩

/-- C3 counterexample: in `vSnowflakeOnly` none of password,
private_key, token is supplied, and the supplied authenticator is the
*default* value `"snowflake"` (so no non-default authenticator is
supplied either), yet construction succeeds instead of failing with a
validation error. -/
theorem c3_counterexample :
    truthy vSnowflakeOnly.password = false ∧ truthy vSnowflakeOnly.private_key = false ∧
    truthy vSnowflakeOnly.token = false ∧ vSnowflakeOnly.authenticator = some "snowflake" ∧
    construct vSnowflakeOnly =
      .ok ⟨"account_name", "user_name", none, none, "snowflake", none, none, none, none⟩ := by
  refine ⟨rfl, rfl, rfl, rfl, ?_⟩; rfl

/-- C3 (amended): for every construction of the credential record in
which each of password, private_key, authenticator and token is
unsupplied or supplied falsy (absent, `None`, or the empty string),
construction fails with the invariant-1 validation error; no record is
produced. -/
theorem c3_no_auth_method_amended (v : RawValues)
    (hpw : truthy v.password = false) (hpk : truthy v.private_key = false)
    (hau : truthy v.authenticator = false) (htok : truthy v.token = false) :
    construct v = .error authKeysMessage := by
  simp [construct, validateAuthKwargs, hpw, hpk, hau, htok]

/-- C3 witness: the amended claim at a concrete raw mapping. -/
theorem c3_witness : construct vNoAuth = .error authKeysMessage :=
  c3_no_auth_method_amended vNoAuth rfl rfl rfl rfl

/-- C9: the three invariant checks are evaluated against the raw input
mapping before any per-field type coercion: whenever one of them fails,
construction aborts with that check's validation error — regardless of
every other field of the mapping, including fields that could not be
coerced — and no record is produced. -/
theorem c9_raw_validation_precedence (v : RawValues) (m : String)
    (h : firstValidationError v = some m) : construct v = .error m := by
  simp only [firstValidationError] at h
  split_ifs at h with h1 h2 h3
  · cases h
    simp [construct, validateAuthKwargs, h1]
  · cases h
    obtain ⟨h2a, h2t⟩ := h2
    simp +decide [construct, validateAuthKwargs, validateTokenKwargs,
          truthy_some, h2a, h2t]
  · cases h
    obtain ⟨h3a, h3o⟩ := h3
    simp +decide [construct, validateAuthKwargs, validateTokenKwargs, validateOktaKwargs,
          truthy_some, h2, h3a, h3o]

/-- C9 witness: the invariant-1 error wins even though `account` and
`user` are also missing from the mapping (so field coercion would have
failed too). -/
theorem c9_witness :
    construct ⟨none, none, none, none, none, none, none, none, none, none⟩ =
      .error authKeysMessage :=
  c9_raw_validation_precedence ⟨none, none, none, none, none, none, none, none, none, none⟩
    authKeysMessage rfl

/-- C10: the at-least-one-auth-method check tests the truthiness of the
raw supplied values, so supplying `password`, `private_key` and `token`
as empty strings with no `authenticator` key is treated as supplying
nothing, and construction fails with the invariant-1 validation error. -/
theorem c10_empty_strings_falsy (v : RawValues)
    (hpw : v.password = some "") (hpk : v.private_key = some "")
    (htok : v.token = some "") (hau : v.authenticator = none) :
    construct v = .error authKeysMessage := by
  simp +decide [construct, validateAuthKwargs, truthy_some, truthy_none,
        hpw, hpk, htok, hau]

/-- C10 witness: the empty-string mapping at a concrete input. -/
theorem c10_witness : construct vEmptyStrings = .error authKeysMessage :=
  c10_empty_strings_falsy vEmptyStrings rfl rfl rfl rfl

/-! ## Lemmas about whitespace splitting -/

/-- `re.split` always returns at least one piece. -/
theorem splitWsRuns_ne_nil (l : List Char) : splitWsRuns l ≠ [] := by
  induction l with
  | nil => simp [splitWsRuns]
  | cons c cs ih =>
    cases cs with
    | nil => by_cases h : isPySpace c <;> simp [splitWsRuns, h]
    | cons d cs2 =>
      by_cases hc : isPySpace c
      · by_cases hd : isPySpace d <;> simp [splitWsRuns, hc, hd, ih]
      · rcases hsp : splitWsRuns (d :: cs2) with _ | ⟨t, ts⟩
        · exact absurd hsp ih
        · simp [splitWsRuns, hc, hsp]

/-- When the input starts with whitespace, the first `re.split` piece
is empty. -/
theorem splitWsRuns_head_of_space :
    ∀ (cs : List Char) (d : Char), isPySpace d = true →
      ∃ ts, splitWsRuns (d :: cs) = [] :: ts := by
  intro cs
  induction cs with
  | nil => exact fun d hd => ⟨[[]], by simp [splitWsRuns, hd]⟩
  | cons e cs2 ih =>
    intro d hd
    by_cases he : isPySpace e
    · obtain ⟨ts, hts⟩ := ih e he
      exact ⟨ts, by rw [splitWsRuns, if_pos hd, if_pos he, hts]⟩
    · exact ⟨splitWsRuns (e :: cs2), by rw [splitWsRuns, if_pos hd, if_neg he]⟩

/-- When the input starts with a non-whitespace character, the first
`re.split` piece starts with that character. -/
theorem splitWsRuns_head_of_nonspace (cs : List Char) (d : Char)
    (hd : isPySpace d = false) :
    ∃ t ts, splitWsRuns (d :: cs) = (d :: t) :: ts := by
  cases cs with
  | nil => exact ⟨[], [], by simp [splitWsRuns, hd]⟩
  | cons e cs2 =>
    rcases hsp : splitWsRuns (e :: cs2) with _ | ⟨t, ts⟩
    · exact absurd hsp (splitWsRuns_ne_nil _)
    · exact ⟨t, ts, by simp [splitWsRuns, hd, hsp]⟩

/-- A string starting with a non-whitespace character has at least one
token. -/
theorem wsTokens_ne_nil (cs : List Char) (c : Char) (hc : isPySpace c = false) :
    wsTokens (c :: cs) ≠ [] := by
  cases cs with
  | nil => simp [wsTokens, hc]
  | cons d cs2 =>
    by_cases hd : isPySpace d
    · simp [wsTokens, hc, hd]
    · rcases hw : wsTokens (d :: cs2) with _ | ⟨t, ts⟩ <;>
        simp [wsTokens, hc, hd, hw]

/-- Discarding the empty pieces of `re.split(r"\s+", l)` yields exactly
the maximal non-whitespace runs of `l`: the code's body-chunk
computation agrees with the spec's "split on any whitespace run and
discard empty tokens". -/
theorem splitWsRuns_filter (l : List Char) :
    (splitWsRuns l).filter (fun t => !t.isEmpty) = wsTokens l := by
  induction l with
  | nil => rfl
  | cons c cs ih =>
    cases cs with
    | nil => by_cases h : isPySpace c <;> simp [splitWsRuns, wsTokens, h]
    | cons d cs2 =>
      by_cases hc : isPySpace c
      · by_cases hd : isPySpace d
        · rw [splitWsRuns, if_pos hc, if_pos hd, wsTokens, if_pos hc]
          exact ih
        · rw [splitWsRuns, if_pos hc, if_neg hd, wsTokens, if_pos hc]
          rw [List.filter_cons]
          simpa using ih
      · by_cases hd : isPySpace d
        · obtain ⟨ts, hts⟩ := splitWsRuns_head_of_space cs2 d hd
          rw [splitWsRuns, if_neg hc, hts, wsTokens, if_neg hc, if_pos hd]
          rw [hts, List.filter_cons] at ih
          simp only [List.isEmpty_nil, Bool.not_true, Bool.false_eq_true,
            if_false] at ih
          rw [List.filter_cons]
          simp only [List.isEmpty_cons, Bool.not_false, if_true]
          rw [ih]
        · obtain ⟨t, ts, hts⟩ :=
            splitWsRuns_head_of_nonspace cs2 d (Bool.not_eq_true _ ▸ eq_false_of_ne_true hd)
          rw [splitWsRuns, if_neg hc, hts, wsTokens, if_neg hc, if_neg hd]
          rw [hts, List.filter_cons] at ih
          simp only [List.isEmpty_cons, Bool.not_false, if_true] at ih
          rw [← ih]
          rw [List.filter_cons]
          simp

/-! ## Lemmas about whitespace collapsing -/

/-- Collapsing a non-empty string yields a non-empty string whose head
has the same whitespace status as the original head (and is the
original head when that head is not whitespace). -/
theorem collapseWs_head :
    ∀ (cs : List Char) (d : Char),
      ∃ x tl, collapseWs (d :: cs) = x :: tl ∧
        isPySpace x = isPySpace d ∧ (isPySpace d = false → x = d) := by
  intro cs
  induction cs with
  | nil =>
    intro d
    by_cases hd : isPySpace d
    · exact ⟨' ', [], by rw [collapseWs, if_pos hd], by rw [hd]; decide,
             fun h => absurd hd (by simp [h])⟩
    · exact ⟨d, [], by rw [collapseWs, if_neg hd], rfl, fun _ => rfl⟩
  | cons e cs2 ih =>
    intro d
    by_cases hd : isPySpace d
    · by_cases he : isPySpace e
      · obtain ⟨x, tl, hx, hxs, _⟩ := ih e
        exact ⟨x, tl, by rw [collapseWs, if_pos ⟨hd, he⟩, hx], by rw [hxs, he, hd],
               fun h => absurd hd (by simp [h])⟩
      · refine ⟨' ', collapseWs (e :: cs2), ?_, by rw [hd]; decide,
               fun h => absurd hd (by simp [h])⟩
        rw [collapseWs, if_neg (by simp [he]), if_pos hd]
    · refine ⟨d, collapseWs (e :: cs2), ?_, rfl, fun _ => rfl⟩
      rw [collapseWs, if_neg (by simp [hd]), if_neg hd]

/-- Collapsing whitespace runs does not change the maximal
non-whitespace runs: the token sequence is invariant. -/
theorem wsTokens_collapseWs (l : List Char) :
    wsTokens (collapseWs l) = wsTokens l := by
  induction l with
  | nil => rfl
  | cons c cs ih =>
    cases cs with
    | nil =>
      by_cases hc : isPySpace c <;> simp +decide [collapseWs, wsTokens, hc]
    | cons d cs2 =>
      obtain ⟨x, tl, hx, hxs, hxd⟩ := collapseWs_head cs2 d
      by_cases hc : isPySpace c
      · by_cases hd : isPySpace d
        · rw [collapseWs, if_pos ⟨hc, hd⟩, ih, wsTokens, if_pos hc]
        · rw [collapseWs, if_neg (by simp [hd]), if_pos hc, hx,
              wsTokens, if_pos (by decide), ← hx, ih,
              wsTokens, if_pos hc]
      · by_cases hd : isPySpace d
        · have hxsp : isPySpace x = true := by rw [hxs, hd]
          rw [collapseWs, if_neg (by simp [hc]), if_neg hc, hx,
              wsTokens, if_neg hc, if_pos hxsp, ← hx, ih,
              wsTokens, if_neg hc, if_pos hd]
        · have hxd' : x = d := hxd (eq_false_of_ne_true hd)
          rw [hxd'] at hx
          have hne := wsTokens_ne_nil cs2 d (eq_false_of_ne_true hd)
          rcases hw : wsTokens (d :: cs2) with _ | ⟨t, ts⟩
          · exact absurd hw hne
          · have hwc : wsTokens (collapseWs (d :: cs2)) = t :: ts := by rw [ih, hw]
            rw [hx] at hwc
            rw [collapseWs, if_neg (by simp [hc]), if_neg hc, hx,
                wsTokens, if_neg hc, if_neg hd, hwc,
                wsTokens, if_neg hc, if_neg hd, hw]

/-- Collapsing preserves freedom from dashes (`' '` is not a dash). -/
theorem collapseWs_no_dash (l : List Char) (h : ∀ c ∈ l, isDash c = false) :
    ∀ c ∈ collapseWs l, isDash c = false := by
  induction l with
  | nil => simp [collapseWs]
  | cons c cs ih =>
    cases cs with
    | nil =>
      by_cases hc : isPySpace c
      · rw [collapseWs, if_pos hc]
        intro e he
        simp only [List.mem_singleton] at he
        rw [he]
        decide
      · rw [collapseWs, if_neg hc]
        intro e he
        simp only [List.mem_singleton] at he
        rw [he]
        exact h c (by simp)
    | cons d cs2 =>
      have hrest : ∀ e ∈ d :: cs2, isDash e = false :=
        fun e he => h e (List.mem_cons_of_mem _ he)
      by_cases hcd : isPySpace c ∧ isPySpace d
      · rw [collapseWs, if_pos hcd]
        exact ih hrest
      · rw [collapseWs, if_neg hcd]
        intro e he
        rcases List.mem_cons.mp he with he1 | he2
        · subst he1
          by_cases hc : isPySpace c
          · rw [if_pos hc]; decide
          · rw [if_neg hc]; exact h c (by simp)
        · exact ih hrest e he2

/-- Collapsing a non-empty list is non-empty. -/
theorem collapseWs_ne_nil (l : List Char) (h : l ≠ []) : collapseWs l ≠ [] := by
  cases l with
  | nil => exact absurd rfl h
  | cons c cs =>
    obtain ⟨x, tl, hx, _, _⟩ := collapseWs_head cs c
    simp [hx]

/-! ## Lemmas about the PEM regex match -/

/-- `takeWhile` over a satisfying run followed by a failing character. -/
theorem takeWhile_run {p : Char → Bool} {xs : List Char} {y : Char} (ys : List Char)
    (hall : ∀ c ∈ xs, p c = true) (hy : p y = false) :
    (xs ++ y :: ys).takeWhile p = xs := by
  rw [List.takeWhile_append_of_pos hall,
      List.takeWhile_cons_of_neg (by simp [hy]), List.append_nil]

/-- `dropWhile` over a satisfying run followed by a failing character. -/
theorem dropWhile_run {p : Char → Bool} {xs : List Char} {y : Char} (ys : List Char)
    (hall : ∀ c ∈ xs, p c = true) (hy : p y = false) :
    (xs ++ y :: ys).dropWhile p = y :: ys := by
  rw [List.dropWhile_append_of_pos hall,
      List.dropWhile_cons_of_neg (by simp [hy])]

/-- The regex match on a string built from seven alternating runs
(dashes / non-dashes / … / dashes) recovers exactly those runs. -/
theorem pemMatchL_concat
    (d1 n1 d2 b d3 n3 d4 : List Char)
    (hd1 : d1 ≠ []) (ad1 : ∀ c ∈ d1, isDash c = true)
    (hn1 : n1 ≠ []) (an1 : ∀ c ∈ n1, isDash c = false)
    (hd2 : d2 ≠ []) (ad2 : ∀ c ∈ d2, isDash c = true)
    (hb : b ≠ []) (ab : ∀ c ∈ b, isDash c = false)
    (hd3 : d3 ≠ []) (ad3 : ∀ c ∈ d3, isDash c = true)
    (hn3 : n3 ≠ []) (an3 : ∀ c ∈ n3, isDash c = false)
    (hd4 : d4 ≠ []) (ad4 : ∀ c ∈ d4, isDash c = true) :
    pemMatchL (d1 ++ n1 ++ d2 ++ b ++ d3 ++ n3 ++ d4) =
      some (d1 ++ n1 ++ d2, b, d3 ++ n3 ++ d4) := by
  have an1' : ∀ c ∈ n1, notDash c = true := fun c hc => by simp [notDash, an1 c hc]
  have ab' : ∀ c ∈ b, notDash c = true := fun c hc => by simp [notDash, ab c hc]
  have an3' : ∀ c ∈ n3, notDash c = true := fun c hc => by simp [notDash, an3 c hc]
  obtain ⟨e1, n1t, rfl⟩ := List.exists_cons_of_ne_nil hn1
  obtain ⟨e2, d2t, rfl⟩ := List.exists_cons_of_ne_nil hd2
  obtain ⟨eb, bt, rfl⟩ := List.exists_cons_of_ne_nil hb
  obtain ⟨e3, d3t, rfl⟩ := List.exists_cons_of_ne_nil hd3
  obtain ⟨e4, n3t, rfl⟩ := List.exists_cons_of_ne_nil hn3
  obtain ⟨e5, d4t, rfl⟩ := List.exists_cons_of_ne_nil hd4
  have he1 : isDash e1 = false := an1 e1 (by simp)
  have he2 : notDash e2 = false := by simp [notDash, ad2 e2 (by simp)]
  have heb : isDash eb = false := ab eb (by simp)
  have he3 : notDash e3 = false := by simp [notDash, ad3 e3 (by simp)]
  have he4 : isDash e4 = false := an3 e4 (by simp)
  have he5 : notDash e5 = false := by simp [notDash, ad4 e5 (by simp)]
  have s1 : (d1 ++ (e1 :: n1t) ++ (e2 :: d2t) ++ (eb :: bt) ++ (e3 :: d3t) ++
      (e4 :: n3t) ++ (e5 :: d4t)).takeWhile isDash = d1 := by
    rw [show d1 ++ (e1 :: n1t) ++ (e2 :: d2t) ++ (eb :: bt) ++ (e3 :: d3t) ++
        (e4 :: n3t) ++ (e5 :: d4t) =
        d1 ++ e1 :: (n1t ++ (e2 :: d2t) ++ (eb :: bt) ++ (e3 :: d3t) ++
          (e4 :: n3t) ++ (e5 :: d4t)) by simp]
    exact takeWhile_run _ ad1 he1
  have s2 : (d1 ++ (e1 :: n1t) ++ (e2 :: d2t) ++ (eb :: bt) ++ (e3 :: d3t) ++
      (e4 :: n3t) ++ (e5 :: d4t)).dropWhile isDash =
      e1 :: (n1t ++ (e2 :: d2t) ++ (eb :: bt) ++ (e3 :: d3t) ++
        (e4 :: n3t) ++ (e5 :: d4t)) := by
    rw [show d1 ++ (e1 :: n1t) ++ (e2 :: d2t) ++ (eb :: bt) ++ (e3 :: d3t) ++
        (e4 :: n3t) ++ (e5 :: d4t) =
        d1 ++ e1 :: (n1t ++ (e2 :: d2t) ++ (eb :: bt) ++ (e3 :: d3t) ++
          (e4 :: n3t) ++ (e5 :: d4t)) by simp]
    exact dropWhile_run _ ad1 he1
  have s3 : (e1 :: (n1t ++ (e2 :: d2t) ++ (eb :: bt) ++ (e3 :: d3t) ++
      (e4 :: n3t) ++ (e5 :: d4t))).takeWhile notDash = e1 :: n1t := by
    rw [show e1 :: (n1t ++ (e2 :: d2t) ++ (eb :: bt) ++ (e3 :: d3t) ++
        (e4 :: n3t) ++ (e5 :: d4t)) =
        (e1 :: n1t) ++ e2 :: (d2t ++ (eb :: bt) ++ (e3 :: d3t) ++
          (e4 :: n3t) ++ (e5 :: d4t)) by simp]
    exact takeWhile_run _ an1' he2
  have s4 : (e1 :: (n1t ++ (e2 :: d2t) ++ (eb :: bt) ++ (e3 :: d3t) ++
      (e4 :: n3t) ++ (e5 :: d4t))).dropWhile notDash =
      e2 :: (d2t ++ (eb :: bt) ++ (e3 :: d3t) ++ (e4 :: n3t) ++ (e5 :: d4t)) := by
    rw [show e1 :: (n1t ++ (e2 :: d2t) ++ (eb :: bt) ++ (e3 :: d3t) ++
        (e4 :: n3t) ++ (e5 :: d4t)) =
        (e1 :: n1t) ++ e2 :: (d2t ++ (eb :: bt) ++ (e3 :: d3t) ++
          (e4 :: n3t) ++ (e5 :: d4t)) by simp]
    exact dropWhile_run _ an1' he2
  have s5 : (e2 :: (d2t ++ (eb :: bt) ++ (e3 :: d3t) ++ (e4 :: n3t) ++
      (e5 :: d4t))).takeWhile isDash = e2 :: d2t := by
    rw [show e2 :: (d2t ++ (eb :: bt) ++ (e3 :: d3t) ++ (e4 :: n3t) ++
        (e5 :: d4t)) =
        (e2 :: d2t) ++ eb :: (bt ++ (e3 :: d3t) ++ (e4 :: n3t) ++ (e5 :: d4t))
        by simp]
    exact takeWhile_run _ ad2 heb
  have s6 : (e2 :: (d2t ++ (eb :: bt) ++ (e3 :: d3t) ++ (e4 :: n3t) ++
      (e5 :: d4t))).dropWhile isDash =
      eb :: (bt ++ (e3 :: d3t) ++ (e4 :: n3t) ++ (e5 :: d4t)) := by
    rw [show e2 :: (d2t ++ (eb :: bt) ++ (e3 :: d3t) ++ (e4 :: n3t) ++
        (e5 :: d4t)) =
        (e2 :: d2t) ++ eb :: (bt ++ (e3 :: d3t) ++ (e4 :: n3t) ++ (e5 :: d4t))
        by simp]
    exact dropWhile_run _ ad2 heb
  have s7 : (eb :: (bt ++ (e3 :: d3t) ++ (e4 :: n3t) ++
      (e5 :: d4t))).takeWhile notDash = eb :: bt := by
    rw [show eb :: (bt ++ (e3 :: d3t) ++ (e4 :: n3t) ++ (e5 :: d4t)) =
        (eb :: bt) ++ e3 :: (d3t ++ (e4 :: n3t) ++ (e5 :: d4t)) by simp]
    exact takeWhile_run _ ab' he3
  have s8 : (eb :: (bt ++ (e3 :: d3t) ++ (e4 :: n3t) ++
      (e5 :: d4t))).dropWhile notDash =
      e3 :: (d3t ++ (e4 :: n3t) ++ (e5 :: d4t)) := by
    rw [show eb :: (bt ++ (e3 :: d3t) ++ (e4 :: n3t) ++ (e5 :: d4t)) =
        (eb :: bt) ++ e3 :: (d3t ++ (e4 :: n3t) ++ (e5 :: d4t)) by simp]
    exact dropWhile_run _ ab' he3
  have s9 : (e3 :: (d3t ++ (e4 :: n3t) ++ (e5 :: d4t))).takeWhile isDash =
      e3 :: d3t := by
    rw [show e3 :: (d3t ++ (e4 :: n3t) ++ (e5 :: d4t)) =
        (e3 :: d3t) ++ e4 :: (n3t ++ (e5 :: d4t)) by simp]
    exact takeWhile_run _ ad3 he4
  have s10 : (e3 :: (d3t ++ (e4 :: n3t) ++ (e5 :: d4t))).dropWhile isDash =
      e4 :: (n3t ++ (e5 :: d4t)) := by
    rw [show e3 :: (d3t ++ (e4 :: n3t) ++ (e5 :: d4t)) =
        (e3 :: d3t) ++ e4 :: (n3t ++ (e5 :: d4t)) by simp]
    exact dropWhile_run _ ad3 he4
  have s11 : (e4 :: (n3t ++ (e5 :: d4t))).takeWhile notDash = e4 :: n3t := by
    rw [show e4 :: (n3t ++ (e5 :: d4t)) = (e4 :: n3t) ++ e5 :: d4t by simp]
    exact takeWhile_run _ an3' he5
  have s12 : (e4 :: (n3t ++ (e5 :: d4t))).dropWhile notDash = e5 :: d4t := by
    rw [show e4 :: (n3t ++ (e5 :: d4t)) = (e4 :: n3t) ++ e5 :: d4t by simp]
    exact dropWhile_run _ an3' he5
  have s13 : (e5 :: d4t).takeWhile isDash = e5 :: d4t :=
    List.takeWhile_eq_self_iff.mpr (fun c hc => by simp [ad4 c hc])
  rw [pemMatchL]
  rw [s1, s2, s3, s4, s5, s6, s7, s8, s9, s10, s11, s12, s13]
  rw [if_pos]
  exact ⟨hd1, by simp, by simp, by simp, by simp, by simp, by simp⟩

/-- Inversion of a successful regex match: the groups decompose into
the seven alternating maximal runs of the input's prefix. -/
theorem pemMatchL_inv {l hd bd ft : List Char}
    (hm : pemMatchL l = some (hd, bd, ft)) :
    ∃ d1 n1 d2 d3 n3 d4,
      hd = d1 ++ n1 ++ d2 ∧ ft = d3 ++ n3 ++ d4 ∧
      d1 ≠ [] ∧ (∀ c ∈ d1, isDash c = true) ∧
      n1 ≠ [] ∧ (∀ c ∈ n1, isDash c = false) ∧
      d2 ≠ [] ∧ (∀ c ∈ d2, isDash c = true) ∧
      bd ≠ [] ∧ (∀ c ∈ bd, isDash c = false) ∧
      d3 ≠ [] ∧ (∀ c ∈ d3, isDash c = true) ∧
      n3 ≠ [] ∧ (∀ c ∈ n3, isDash c = false) ∧
      d4 ≠ [] ∧ (∀ c ∈ d4, isDash c = true) := by
  simp only [pemMatchL] at hm
  split_ifs at hm with hcond
  · obtain ⟨h1, h2, h3, h4, h5, h6, h7⟩ := hcond
    rw [Option.some_inj, Prod.mk.injEq, Prod.mk.injEq] at hm
    obtain ⟨hhd, hbd, hft⟩ := hm
    subst hhd
    subst hbd
    subst hft
    refine ⟨_, _, _, _, _, _, rfl, rfl, h1, ?_, h2, ?_, h3, ?_, h4, ?_, h5, ?_,
           h6, ?_, h7, ?_⟩
    · exact fun c hc => List.mem_takeWhile_imp hc
    · exact fun c hc => by simpa [notDash] using List.mem_takeWhile_imp hc
    · exact fun c hc => List.mem_takeWhile_imp hc
    · exact fun c hc => by simpa [notDash] using List.mem_takeWhile_imp hc
    · exact fun c hc => List.mem_takeWhile_imp hc
    · exact fun c hc => by simpa [notDash] using List.mem_takeWhile_imp hc
    · exact fun c hc => List.mem_takeWhile_imp hc

/-! ## Theorems about the certificate normalizer -/

/-- C7: on a key text matching the three-part PEM pattern, the
reassembly step produces exactly the header, then each body chunk
obtained by splitting the body on whitespace runs with empty tokens
discarded (the maximal non-whitespace runs), then the footer, joined
by single newline characters. -/
theorem c7_reassembly (key : String) (hd bd ft : List Char)
    (hm : pemMatchL key.data = some (hd, bd, ft)) :
    reassembleCert key = some (joinNl (hd :: wsTokens bd ++ [ft])) := by
  simp [reassembleCert, disassembleCert, hm, splitWsRuns_filter]

/-- C7 witness: the reassembly at a concrete certificate. -/
theorem c7_witness :
    reassembleCert pemKeyExample =
      some (joinNl ("--B--".data :: wsTokens "x  y".data ++ ["--E--".data])) :=
  c7_reassembly pemKeyExample "--B--".data "x  y".data "--E--".data (by decide)

/-- C8: on an input without the dashed BEGIN/END delimiter structure
(no match for the three-part pattern), the normalizer raises — the
`None` match object is subscripted inside the generator — and returns
no bytes; the external key loader is never reached. -/
theorem c8_malformed_pem
    (loadSer : List Char → Option String → Except String (List Nat))
    (key : String) (pw : Option String) (hm : pemMatchL key.data = none) :
    resolvePemCertificate loadSer key pw =
      .error "TypeError: NoneType object is not subscriptable" := by
  simp [resolvePemCertificate, reassembleCert, disassembleCert, hm]

/-- C8 witness: a delimiter-free key string errors for any passphrase
and any load step. -/
theorem c8_witness :
    resolvePemCertificate loadSerStub badKeyExample none =
      .error "TypeError: NoneType object is not subscriptable" :=
  c8_malformed_pem loadSerStub badKeyExample none (by decide)

/-- C6: a passphrase consisting only of whitespace — here the six
ASCII whitespace characters, which are exactly the characters whose
UTF-8 bytes satisfy `bytes.isspace` after `password.encode()` — is
treated like no passphrase at all: the normalizer is called with the
same reassembled PEM and passphrase `None` in both cases, so the
result is identical.  More generally an absent (or non-byte-like)
passphrase and the empty string normalize to `None`, and a non-empty
text passphrase that is not whitespace-only survives (encoded to its
UTF-8 bytes). -/
theorem c6_whitespace_passphrase :
    (∀ (loadSer : List Char → Option String → Except String (List Nat))
       (key : String) (p : String), p ≠ "" →
       p.data.all isAsciiSpaceChar = true →
       resolvePemCertificate loadSer key (some p) =
         resolvePemCertificate loadSer key none) ∧
    normalizePassword none = none ∧
    normalizePassword (some "") = none ∧
    (∀ p : String, p.data.all isAsciiSpaceChar = true →
      normalizePassword (some p) = none) ∧
    (∀ p : String, p.data.all isAsciiSpaceChar = false →
      normalizePassword (some p) = some p) := by
  have hws : ∀ p : String, p.data.all isAsciiSpaceChar = true →
      normalizePassword (some p) = none := by
    intro p hall
    by_cases hp : p.isEmpty <;> simp [normalizePassword, hp, hall]
  refine ⟨?_, rfl, rfl, hws, ?_⟩
  · intro loadSer key p _ hall
    have h1 : normalizePassword (some p) = none := hws p hall
    have h2 : normalizePassword none = none := rfl
    rcases h : reassembleCert key with _ | pem <;>
      simp [resolvePemCertificate, h, h1, h2]
  · intro p hall
    have hp : ¬ p.isEmpty = true := by
      intro hemp
      rw [(String.isEmpty_iff p).mp hemp] at hall
      simp at hall
    simp [normalizePassword, hp, hall]

/-- C6 witness: a whitespace-only passphrase behaves like none, and the
normalization cases at concrete passphrases. -/
theorem c6_witness :
    resolvePemCertificate loadSerPw pemKeyExample (some " \t") =
      resolvePemCertificate loadSerPw pemKeyExample none ∧
    normalizePassword (some "  ") = none ∧
    normalizePassword (some "hunter2") = some "hunter2" :=
  ⟨c6_whitespace_passphrase.1 loadSerPw pemKeyExample " \t" (by decide) (by decide),
   c6_whitespace_passphrase.2.2.2.1 "  " (by decide),
   c6_whitespace_passphrase.2.2.2.2 "hunter2" (by decide)⟩

/-- Evaluation of the normalizer on a matching key: the library is
called on the reassembled PEM (header, body tokens, footer joined by
newlines) and the normalized passphrase. -/
theorem resolvePem_of_match
    (loadSer : List Char → Option String → Except String (List Nat))
    (key : String) (hd bd ft : List Char)
    (hm : pemMatchL key.data = some (hd, bd, ft)) (pw : Option String) :
    resolvePemCertificate loadSer key pw =
      loadSer (joinNl (hd :: wsTokens bd ++ [ft])) (normalizePassword pw) := by
  simp [resolvePemCertificate, reassembleCert, disassembleCert, hm, splitWsRuns_filter]

/-- C5: normalizing the variant of a valid PEM key whose body
whitespace runs are collapsed to single spaces (in particular, no
newlines remain in the body) yields exactly the same result as
normalizing the original key, for every passphrase and every behavior
of the external load/serialize step: the reassembled PEM handed to the
library is identical, because the body chunks are the maximal
non-whitespace runs, which collapsing preserves. -/
theorem c5_collapse_roundtrip
    (loadSer : List Char → Option String → Except String (List Nat))
    (key : String) (pw : Option String) (hd bd ft : List Char)
    (hm : pemMatchL key.data = some (hd, bd, ft)) :
    resolvePemCertificate loadSer (String.mk (hd ++ collapseWs bd ++ ft)) pw =
      resolvePemCertificate loadSer key pw := by
  obtain ⟨d1, n1, d2, d3, n3, d4, rfl, rfl, h1, a1, h2, a2, h3, a3, hb, ab2,
         h4, a4, h5, a5, h6, a6⟩ := pemMatchL_inv hm
  have hcol1 : collapseWs bd ≠ [] := collapseWs_ne_nil bd hb
  have hcol2 : ∀ c ∈ collapseWs bd, isDash c = false := collapseWs_no_dash bd ab2
  have hmc := pemMatchL_concat d1 n1 d2 (collapseWs bd) d3 n3 d4
    h1 a1 h2 a2 h3 a3 hcol1 hcol2 h4 a4 h5 a5 h6 a6
  have hm2 : pemMatchL (String.mk ((d1 ++ n1 ++ d2) ++ collapseWs bd ++
      (d3 ++ n3 ++ d4))).data =
      some (d1 ++ n1 ++ d2, collapseWs bd, d3 ++ n3 ++ d4) := by
    show pemMatchL ((d1 ++ n1 ++ d2) ++ collapseWs bd ++ (d3 ++ n3 ++ d4)) = _
    rw [show (d1 ++ n1 ++ d2) ++ collapseWs bd ++ (d3 ++ n3 ++ d4) =
        d1 ++ n1 ++ d2 ++ collapseWs bd ++ d3 ++ n3 ++ d4 from by
      simp [List.append_assoc]]
    exact hmc
  rw [resolvePem_of_match loadSer _ _ _ _ hm2 pw,
      resolvePem_of_match loadSer key _ _ _ hm pw, wsTokens_collapseWs]

/-- C5 witness: the collapsed variant of the concrete certificate
resolves identically. -/
theorem c5_witness :
    resolvePemCertificate loadSerStub
        (String.mk ("--B--".data ++ collapseWs "x  y".data ++ "--E--".data)) none =
      resolvePemCertificate loadSerStub pemKeyExample none :=
  c5_collapse_roundtrip loadSerStub pemKeyExample none
    "--B--".data "x  y".data "--E--".data (by decide)

end PrefectSnowflake
